import Mathlib

/-!
Verification development for the ai-component-hub repository.

The definitions below are shallow embeddings of the Python sources:
  - src/orchestrator/app/services/file_stage.py
  - src/orchestrator/app/services/job_tracker.py
  - src/orchestrator/app/agents/doc_ocr/handler.py
  - src/gateway/app/main.py
  - src/components/esb/app/main.py
Strings are modelled as List Char so that parsing functions can be
reasoned about by structural induction; bytes are modelled as Nat.
-/

namespace AIHub

/-! ## Basic string helpers (List Char) -/

/-- Split a character list at the first occurrence of a character.
Returns the part before and the part after the separator, the separator
itself excluded, or none when the character does not occur.  Mirrors
Python str.split(sep, 1) and str.find. -/
def breakAtFirst (c : Char) : List Char → Option (List Char × List Char)
  | [] => none
  | x :: xs =>
    if x = c then some ([], xs)
    else (breakAtFirst c xs).map (fun r => (x :: r.1, r.2))

/-- Python str.rpartition with separator the slash character, keeping only
the first and third components: the part before the last slash and the
part after it.  When no slash occurs, Python returns an empty head and the
whole string as tail. -/
def rpartitionSlash (s : List Char) : List Char × List Char :=
  match breakAtFirst '/' s.reverse with
  | none => ([], s)
  | some (revAfter, revBefore) => (revBefore.reverse, revAfter.reverse)

/-- Python str.rstrip with a single strip character. -/
def rstripChar (c : Char) (s : List Char) : List Char :=
  (s.reverse.dropWhile (fun x => x = c)).reverse

/-! ## Embedding of urllib.parse.urlsplit

CPython (3.10+) removes tab, carriage return and newline characters from
the URL, then parses an optional scheme (a leading ASCII letter followed
by letters, digits, plus, minus or dot, terminated by a colon, the scheme
lowercased), an optional netloc after a double slash (extending to the
first slash, question mark or hash, with a ValueError when exactly one of
the square brackets appears in it), then splits off the fragment at the
first hash and the query at the first question mark.  The bracket
ValueError is modelled by returning none. -/

structure UrlSplitResult where
  scheme : List Char
  netloc : List Char
  path : List Char
  query : List Char
  fragment : List Char
  deriving Repr, DecidableEq

/-- Characters CPython urlsplit removes from the URL before parsing. -/
def isUnsafeUrlChar (c : Char) : Bool :=
  c = '\t' || c = '\r' || c = '\n'

/-- Characters allowed in a URL scheme by urllib.parse. -/
def isSchemeChar (c : Char) : Bool :=
  c.isAlpha || c.isDigit || c = '+' || c = '-' || c = '.'

/-- Characters that terminate the netloc in urlsplit. -/
def isNetlocStop (c : Char) : Bool :=
  c = '/' || c = '?' || c = '#'

/-- ASCII letter test of CPython str.isascii combined with isalpha. -/
def isAsciiAlphaChar (c : Char) : Bool :=
  c.isAlpha && decide (c.toNat < 128)

/-- Scheme parsing step of urlsplit: when the text before the first colon
is nonempty, starts with an ASCII letter and consists of scheme
characters, it is the scheme (lowercased) and the rest follows the colon;
otherwise the scheme is empty and the URL is unchanged. -/
def urlsplitScheme (u : List Char) : List Char × List Char :=
  match breakAtFirst ':' u with
  | none => ([], u)
  | some (before, after) =>
    match before with
    | [] => ([], u)
    | c0 :: rest =>
      if isAsciiAlphaChar c0 && (c0 :: rest).all isSchemeChar then
        ((c0 :: rest).map Char.toLower, after)
      else ([], u)

/-- Character classes used to state the round-trip law: characters a
server file may carry so that it survives composition and urlsplit. -/
def isPlainFileChar (c : Char) : Bool :=
  !(c = '/' || c = '?' || c = '#' || isUnsafeUrlChar c)

/-- Characters a netloc may carry so that urlsplit keeps it intact. -/
def isPlainNetlocChar (c : Char) : Bool :=
  !(c = '/' || c = '?' || c = '#' || c = '[' || c = ']' || isUnsafeUrlChar c)

/-- Characters a directory path may carry so that urlsplit keeps it. -/
def isPlainDirChar (c : Char) : Bool :=
  !(c = '?' || c = '#' || isUnsafeUrlChar c)

def pyUrlsplit (url : List Char) : Option UrlSplitResult :=
  let u0 := url.filter (fun c => !isUnsafeUrlChar c)
  let sr := urlsplitScheme u0
  let scheme := sr.1
  let u1 := sr.2
  match u1 with
  | '/' :: '/' :: u2 =>
    let netloc := u2.takeWhile (fun c => !isNetlocStop c)
    let u3 := u2.dropWhile (fun c => !isNetlocStop c)
    if ((('[' ∈ netloc) && (']' ∉ netloc)) || ((']' ∈ netloc) && ('[' ∉ netloc))) then
      none
    else
      let fr := match breakAtFirst '#' u3 with
        | none => (u3, ([] : List Char))
        | some (a, b) => (a, b)
      let qr := match breakAtFirst '?' fr.1 with
        | none => (fr.1, ([] : List Char))
        | some (a, b) => (a, b)
      some ⟨scheme, netloc, qr.1, qr.2, fr.2⟩
  | _ =>
    let fr := match breakAtFirst '#' u1 with
      | none => (u1, ([] : List Char))
      | some (a, b) => (a, b)
    let qr := match breakAtFirst '?' fr.1 with
      | none => (fr.1, ([] : List Char))
      | some (a, b) => (a, b)
    some ⟨scheme, [], qr.1, qr.2, fr.2⟩

/-! ## Embedding of split_url_for_esb
(src/orchestrator/app/services/file_stage.py, lines 68 to 78).
The Python function raises ValueError when scheme or netloc is missing or
when the path carries no trailing filename; raising is modelled by none. -/

def split_url_for_esb (file_url : List Char) : Option (List Char × List Char) :=
  match pyUrlsplit file_url with
  | none => none
  | some parsed =>
    if parsed.scheme = [] || parsed.netloc = [] then none
    else
      let rp := rpartitionSlash parsed.path
      let dir_path := rp.1
      let filename := rp.2
      if filename = [] then none
      else some (parsed.scheme ++ (':' :: '/' :: '/' :: parsed.netloc) ++ dir_path, filename)

/-- Composition of a server path and a server file into a URL by joining
with a slash, the inverse direction of split_url_for_esb named in the
round-trip law of the spec. -/
def composeUrl (server_path server_file : List Char) : List Char :=
  server_path ++ '/' :: server_file

/-! ## Embedding of the pathlib accessors used by the doc-OCR handler

PurePosixPath parsing drops empty components and single-dot components;
the name is the last remaining component.  The stem and suffix split the
name at its last dot, provided that dot is neither the first nor the last
character of the name. -/

/-- Split a character list on every occurrence of a character. -/
def splitOnCharAux (c : Char) (cur : List Char) : List Char → List (List Char)
  | [] => [cur.reverse]
  | x :: xs =>
    if x = c then cur.reverse :: splitOnCharAux c [] xs
    else splitOnCharAux c (x :: cur) xs

def splitOnChar (c : Char) (s : List Char) : List (List Char) :=
  splitOnCharAux c [] s

/-- Final component of a POSIX path, as pathlib Path name. -/
def pathlibName (s : List Char) : List Char :=
  let comps := (splitOnChar '/' s).filter (fun comp => !comp.isEmpty && !(comp == ['.']))
  comps.getLastD []

/-- Stem of the final component, as pathlib Path stem. -/
def pathlibStem (s : List Char) : List Char :=
  let n := pathlibName s
  match breakAtFirst '.' n.reverse with
  | none => n
  | some (revAfter, revBefore) =>
    if !revBefore.isEmpty && !revAfter.isEmpty then revBefore.reverse else n

/-- Suffix of the final component, as pathlib Path suffix. -/
def pathlibSuffix (s : List Char) : List Char :=
  let n := pathlibName s
  match breakAtFirst '.' n.reverse with
  | none => []
  | some (revAfter, revBefore) =>
    if !revBefore.isEmpty && !revAfter.isEmpty then '.' :: revAfter.reverse else []

/-- Joining of a PurePosixPath with a relative component, as the slash
operator of pathlib followed by str. -/
def pathJoin (a b : List Char) : List Char :=
  if a = [] then b else rstripChar '/' a ++ '/' :: b

/-! ## SHA-256

Executable implementation used to model hashlib.sha256.  Machine words
are Nat values reduced modulo 2 to the 32. -/

def w32mod : Nat := 4294967296

def rotr32 (n x : Nat) : Nat :=
  ((x >>> n) ||| (x <<< (32 - n))) % w32mod

def sha256K : List Nat :=
  [1116352408, 1899447441, 3049323471, 3921009573, 961987163, 1508970993,
   2453635748, 2870763221, 3624381080, 310598401, 607225278, 1426881987,
   1925078388, 2162078206, 2614888103, 3248222580, 3835390401, 4022224774,
   264347078, 604807628, 770255983, 1249150122, 1555081692, 1996064986,
   2554220882, 2821834349, 2952996808, 3210313671, 3336571891, 3584528711,
   113926993, 338241895, 666307205, 773529912, 1294757372, 1396182291,
   1695183700, 1986661051, 2177026350, 2456956037, 2730485921, 2820302411,
   3259730800, 3345764771, 3516065817, 3600352804, 4094571909, 275423344,
   430227734, 506948616, 659060556, 883997877, 958139571, 1322822218,
   1537002063, 1747873779, 1955562222, 2024104815, 2227730452, 2361852424,
   2428436474, 2756734187, 3204031479, 3329325298]

def sha256H0 : List Nat :=
  [1779033703, 3144134277, 1013904242, 2773480762,
   1359893119, 2600822924, 528734635, 1541459225]

/-- Big-endian byte decomposition of a Nat into k bytes. -/
def natToBytesBE : Nat → Nat → List Nat
  | 0, _ => []
  | k + 1, n => natToBytesBE k (n >>> 8) ++ [n % 256]

/-- Group a byte list into big-endian 32-bit words. -/
def bytesToWords : List Nat → List Nat
  | b0 :: b1 :: b2 :: b3 :: rest => (((b0 * 256 + b1) * 256 + b2) * 256 + b3) :: bytesToWords rest
  | _ => []

/-- One extension step of the SHA-256 message schedule. -/
def sha256ScheduleStep (w : List Nat) : List Nat :=
  let n := w.length
  let w15 := w.getD (n - 15) 0
  let w2 := w.getD (n - 2) 0
  let w16 := w.getD (n - 16) 0
  let w7 := w.getD (n - 7) 0
  let s0 := Nat.xor (Nat.xor (rotr32 7 w15) (rotr32 18 w15)) (w15 >>> 3)
  let s1 := Nat.xor (Nat.xor (rotr32 17 w2) (rotr32 19 w2)) (w2 >>> 10)
  w ++ [(w16 + s0 + w7 + s1) % w32mod]

def sha256Schedule (w16 : List Nat) : List Nat :=
  (List.range 48).foldl (fun w _ => sha256ScheduleStep w) w16

/-- One SHA-256 compression round on the eight-word working state. -/
def sha256Round (st : List Nat) (kw : Nat × Nat) : List Nat :=
  match st with
  | [a, b, c, d, e, f, g, h] =>
    let S1 := Nat.xor (Nat.xor (rotr32 6 e) (rotr32 11 e)) (rotr32 25 e)
    let ch := Nat.xor (Nat.land e f) (Nat.land (Nat.xor e (w32mod - 1)) g)
    let temp1 := (h + S1 + ch + kw.1 + kw.2) % w32mod
    let S0 := Nat.xor (Nat.xor (rotr32 2 a) (rotr32 13 a)) (rotr32 22 a)
    let maj := Nat.xor (Nat.xor (Nat.land a b) (Nat.land a c)) (Nat.land b c)
    let temp2 := (S0 + maj) % w32mod
    [(temp1 + temp2) % w32mod, a, b, c, (d + temp1) % w32mod, e, f, g]
  | other => other

/-- Process one padded 64-byte block. -/
def sha256Block (h : List Nat) (block : List Nat) : List Nat :=
  let w := sha256Schedule (bytesToWords block)
  let st := (sha256K.zip w).foldl sha256Round h
  (h.zip st).map (fun p => (p.1 + p.2) % w32mod)

/-- SHA-256 padding: a 0x80 byte, zeros to 56 mod 64, then the bit length
as eight big-endian bytes. -/
def sha256Pad (msg : List Nat) : List Nat :=
  let L := msg.length
  msg ++ 128 :: List.replicate ((119 - L % 64) % 64) 0 ++ natToBytesBE 8 (8 * L)

/-- Split a list into blocks of 64, driven by a structural fuel. -/
def chunk64 : Nat → List Nat → List (List Nat)
  | 0, _ => []
  | _, [] => []
  | fuel + 1, l => l.take 64 :: chunk64 fuel (l.drop 64)

def sha256Words (msg : List Nat) : List Nat :=
  let padded := sha256Pad msg
  (chunk64 padded.length padded).foldl sha256Block sha256H0

def hexDigitChar (n : Nat) : Char :=
  if n < 10 then Char.ofNat (48 + n) else Char.ofNat (87 + n)

def toHex8 (n : Nat) : List Char :=
  (List.range 8).map (fun i => hexDigitChar ((n >>> (28 - 4 * i)) % 16))

/-- Lowercase hex digest of SHA-256 over a byte list, as hexdigest. -/
def sha256Hex (msg : List Nat) : List Char :=
  ((sha256Words msg).map toHex8).flatten

/-! ## Embedding of download_to_staging
(src/orchestrator/app/services/file_stage.py, lines 25 to 65).

The function opens one streaming HTTP request and folds the streamed
chunks: empty chunks are skipped, every other chunk is written to the
destination file, added to the byte counter and fed to the incremental
sha256.  The incremental hash state of hashlib is modelled by the list of
bytes fed to update so far; hexdigest is sha256Hex of that list.  The
network is an oracle mapping the single HTTP action the code performs to
the streamed chunk list. -/

structure EsbDownloadBody where
  server_path : List Char
  server_file : List Char
  local_file_path : Option (List Char)
  deriving Repr, DecidableEq

structure HttpActionM where
  method : List Char
  target : List Char
  jsonBody : Option EsbDownloadBody
  deriving Repr, DecidableEq

structure StagedFile where
  request_id : List Char
  url : List Char
  local_path : List Char
  size_bytes : Nat
  sha256 : List Char
  deriving Repr, DecidableEq

/-- Fold of the streaming loop: state is the bytes written so far, the
size counter, and the bytes fed to the incremental hash so far. -/
def streamFoldAux (written : List Nat) (size : Nat) (hashed : List Nat) :
    List (List Nat) → List Nat × Nat × List Nat
  | [] => (written, size, hashed)
  | chunk :: rest =>
    if chunk = [] then streamFoldAux written size hashed rest
    else streamFoldAux (written ++ chunk) (size + chunk.length) (hashed ++ chunk) rest

/-- Result of the download model: the StagedFile value the function
returns, the bytes written to the destination file, and the HTTP action
the function performed. -/
structure DownloadResult where
  staged : StagedFile
  writtenBytes : List Nat
  action : HttpActionM

def download_to_staging (request_id url staging_dir filename esb_base_url : List Char)
    (fetch : HttpActionM → List (List Nat)) : DownloadResult :=
  let download_url := if url = [] then rstripChar '/' esb_base_url ++ ('/' :: "SSC".toList) else url
  let act : HttpActionM := ⟨"GET".toList, download_url, none⟩
  let chunks := fetch act
  let folded := streamFoldAux [] 0 [] chunks
  let dst := pathJoin (pathJoin staging_dir request_id) filename
  ⟨⟨request_id, url, dst, folded.2.1, sha256Hex folded.2.2⟩, folded.1, act⟩

/-- Modelled from the spec: the HTTP action that section 4.4 of the spec
and claim C4 say the download performs, namely a POST of the decomposed
URL to the ESB esb-download endpoint with a null local_file_path.  This
definition follows the words of the spec for comparison with the action
computed by download_to_staging; it is not translated from
src/orchestrator/app/services/file_stage.py. -/
def claimedEsbDownloadAction (url esb_base_url : List Char) : Option HttpActionM :=
  (split_url_for_esb url).map (fun sp_sf =>
    ⟨"POST".toList, rstripChar '/' esb_base_url ++ ('/' :: "esb-download".toList),
     some ⟨sp_sf.1, sp_sf.2, none⟩⟩)

/-! ## JSON values

Small JSON value type used for job results and for the gateway envelope.
Numbers are integers; the claims never inspect numeric values. -/

inductive JVal where
  | obj (fields : List (String × JVal))
  | arr (elems : List JVal)
  | str (s : String)
  | num (n : Int)
  | bool (b : Bool)
  | null

/-! ## Embedding of the job tracker
(src/orchestrator/app/services/job_tracker.py).

The Redis-backed JobTracker is modelled over an association-list KV
store holding string values; set with nx is atomic.  Faults of the two
Redis calls inside release_lock are injected as booleans: the source
wraps the compare-then-delete in a try and except that swallows every
exception, so a fault makes the call a no-op and the function still
returns normally, which is how the never-raises clause is embedded. -/

abbrev KVStore := List (String × String)

def kvGet (st : KVStore) (k : String) : Option String :=
  (st.find? (fun p => p.1 = k)).map (fun p => p.2)

def kvSet (st : KVStore) (k v : String) : KVStore :=
  (k, v) :: st.filter (fun p => p.1 ≠ k)

def kvDel (st : KVStore) (k : String) : KVStore :=
  st.filter (fun p => p.1 ≠ k)

/-- Key builder of JobTracker for the lock namespace. -/
def redisLockKey (keyPref request_id : String) : String :=
  keyPref ++ ":lock:" ++ request_id

/-- JobTracker acquire_lock: SET NX of a fresh token under the lock key.
The uuid4 token is an input; the TTL only bounds the lifetime of the key
and is not part of the state transition. -/
def JobTracker.acquire_lock (st : KVStore) (keyPref request_id token : String) :
    Option String × KVStore :=
  match kvGet st (redisLockKey keyPref request_id) with
  | some _ => (none, st)
  | none => (some token, kvSet st (redisLockKey keyPref request_id) token)

/-- JobTracker release_lock: read the current value, delete only when it
equals the caller token; any exception from the two Redis calls is
swallowed (getFault and delFault inject those faults). -/
def JobTracker.release_lock (st : KVStore) (keyPref request_id token : String)
    (getFault delFault : Bool) : KVStore :=
  if getFault then st
  else
    match kvGet st (redisLockKey keyPref request_id) with
    | none => st
    | some cur =>
      if cur = token then
        if delFault then st else kvDel st (redisLockKey keyPref request_id)
      else st

/-- Job record payload written by set_status: a status plus nullable
result and error.  The Redis tracker stores it JSON-encoded and the
in-memory tracker stores the dict itself; both are modelled at the
record level. -/
structure JobRecordM where
  status : String
  result : Option JVal
  error : Option String

/-- In-memory tracker: process-local maps, no TTL eviction.  The lock map
is a set of keys only; the token is not stored. -/
structure InMemoryJobTracker where
  jobs : List (String × JobRecordM)
  locks : List String

def memJobKey (request_id : String) : String := "mem:job:" ++ request_id

def memLockKey (request_id : String) : String := "mem:lock:" ++ request_id

def InMemoryJobTracker.get_job (t : InMemoryJobTracker) (request_id : String) :
    Option JobRecordM :=
  ((t.jobs).find? (fun p => p.1 = memJobKey request_id)).map (fun p => p.2)

def InMemoryJobTracker.acquire_lock (t : InMemoryJobTracker) (request_id token : String) :
    Option String × InMemoryJobTracker :=
  if memLockKey request_id ∈ t.locks then (none, t)
  else (some token, { t with locks := memLockKey request_id :: t.locks })

/-- In-memory release_lock: the source discards the lock key from the set
without comparing the token. -/
def InMemoryJobTracker.release_lock (t : InMemoryJobTracker) (request_id : String)
    (_token : String) : InMemoryJobTracker :=
  { t with locks := t.locks.filter (fun k => k ≠ memLockKey request_id) }

def InMemoryJobTracker.set_status (t : InMemoryJobTracker) (request_id status : String)
    (result : Option JVal) (error : Option String) : InMemoryJobTracker :=
  { t with jobs := (memJobKey request_id, ⟨status, result, error⟩) ::
      t.jobs.filter (fun p => p.1 ≠ memJobKey request_id) }

/-! ## Embedding of the doc-OCR handler
(src/orchestrator/app/agents/doc_ocr/handler.py).

The POST entry point run is modelled after body validation succeeded:
it reads the job record, then either replays the existing record, or
reports RUNNING when the idempotency lock is already held, or writes
RECEIVED, spawns the background task and answers 202.  The tracker is
the in-memory variant, which stores records directly; the Redis variant
differs only by JSON round-tripping of the record. -/

structure DocOCRResp where
  request_id : String
  status : String
  result : Option JVal
  error : Option String

/-- HTTP outcome of the POST handler: status code and body. -/
def doc_ocr_run (t : InMemoryJobTracker) (request_id token : String) :
    (Nat × DocOCRResp) × InMemoryJobTracker :=
  match t.get_job request_id with
  | some existing =>
    ((200, ⟨request_id, existing.status, existing.result, existing.error⟩), t)
  | none =>
    match t.acquire_lock request_id token with
    | (none, t1) => ((200, ⟨request_id, "RUNNING", none, none⟩), t1)
    | (some _, t1) =>
      ((202, ⟨request_id, "RECEIVED", none, none⟩),
       t1.set_status request_id "RECEIVED" none none)

/-- Statuses written by the background task of the handler, in order.
The three booleans are the outcomes of the fallible external steps: all
staging downloads, the agent adapter call, and the ESB upload together
with the file write and URL decomposition that precede it inside the
same region of the try block.  Any exception in those regions lands in
the FAILED branch the source writes there; the final callback and lock
release in the finally block write no status. -/
def process_doc_ocr_writes (downloadsOk agentOk uploadOk : Bool) : List String :=
  "RUNNING" ::
    (if !downloadsOk then ["FAILED"]
     else if !agentOk then ["FAILED"]
     else "UPLOADING" :: [if uploadOk then "SUCCEEDED" else "FAILED"])

/-- Full per-request status trace: the RECEIVED write of run followed by
the writes of the background task. -/
def doc_ocr_statusTrace (downloadsOk agentOk uploadOk : Bool) : List String :=
  "RECEIVED" :: process_doc_ocr_writes downloadsOk agentOk uploadOk

def isTerminalStatus (s : String) : Bool :=
  s = "SUCCEEDED" || s = "FAILED"

/-- Check that no non-terminal status is written after a terminal one. -/
def noNonTerminalAfterTerminal : List String → Bool
  | [] => true
  | s :: rest =>
    (!isTerminalStatus s || rest.all isTerminalStatus) && noNonTerminalAfterTerminal rest

/-! ## Embedding of the filename derivation of the doc-OCR handler
(src/orchestrator/app/agents/doc_ocr/handler.py, lines 108 to 119). -/

structure FileRefM where
  url : List Char
  filename : Option (List Char)

def inputDefaultName (idx : Nat) : List Char :=
  "input-".toList ++ (Nat.repr (idx + 1)).toList ++ ".bin".toList

/-- Initial filename of a file ref: the given filename when truthy, else
the basename of the URL path, else input-(idx+1).bin.  A urlsplit
ValueError would abort the whole job in the source before any further
staging; the model maps that case to the empty path, which only matters
for URLs with unbalanced square brackets. -/
def derive_filename (idx : Nat) (r : FileRefM) : List Char :=
  let fromUrl :=
    let p := match pyUrlsplit r.url with
      | some parsed => parsed.path
      | none => []
    let parsed_name := pathlibName p
    if parsed_name = [] then inputDefaultName idx else parsed_name
  match r.filename with
  | none => fromUrl
  | some f => if f = [] then fromUrl else f

/-- Rename applied when the derived name was already used: stem, dash,
one-based index, suffix; the empty stem falls back to the word input. -/
def dedupRename (idx : Nat) (filename : List Char) : List Char :=
  let stem0 := pathlibStem filename
  let stem := if stem0 = [] then "input".toList else stem0
  stem ++ ('-' :: (Nat.repr (idx + 1)).toList) ++ pathlibSuffix filename

/-- Staging-name loop of the handler.  Returns the chosen local filenames
in order, together with a flag recording whether every chosen name was
fresh with respect to the used set at its turn; the source adds the
chosen name to the used set without rechecking a rename. -/
def stage_filenames_go (idx : Nat) (used : List (List Char)) :
    List FileRefM → List (List Char) × Bool
  | [] => ([], true)
  | r :: rs =>
    let n0 := derive_filename idx r
    let chosen := if n0 ∈ used then dedupRename idx n0 else n0
    let rest := stage_filenames_go (idx + 1) (chosen :: used) rs
    (chosen :: rest.1, (decide (chosen ∉ used) && rest.2))

def stage_filenames (refs : List FileRefM) : List (List Char) × Bool :=
  stage_filenames_go 0 [] refs

/-! ## Embedding of the callback sender
(src/orchestrator/app/agents/doc_ocr/handler.py, lines 23 to 75).

The loop runs over the Python range from 1 to max_retries inclusive.
Every attempt posts the payload; a 2xx response (ok) stops the loop, any
other outcome counts as a failure, and a failed attempt that is not the
last one is followed by a sleep of base_delay times 2 to the power
attempt minus 1.  The model returns the list of posted payloads and the
list of sleep durations, in order. -/

def pyRangeList (a b : Nat) : List Nat :=
  List.range' a (b - a)

def sendCallbackLoop {P : Type} (payload : P) (base_delay : ℚ) (ok : Nat → Bool)
    (max_retries : Nat) : List Nat → List P × List ℚ
  | [] => ([], [])
  | attempt :: rest =>
    if ok attempt then ([payload], [])
    else if attempt < max_retries then
      let r := sendCallbackLoop payload base_delay ok max_retries rest
      (payload :: r.1, (base_delay * 2 ^ (attempt - 1)) :: r.2)
    else ([payload], [])

def send_callback {P : Type} (payload : P) (base_delay : ℚ) (ok : Nat → Bool)
    (max_retries : Nat) : List P × List ℚ :=
  sendCallbackLoop payload base_delay ok max_retries (pyRangeList 1 (max_retries + 1))

/-! ## Embedding of the gateway proxy envelope
(src/gateway/app/main.py, lines 183 to 215).

The upstream outcome is either a response carrying a status, the parse
result of its body and its raw text, or one of the two transport
failures; httpx TimeoutException is caught before the general
RequestError, so a timeout never reaches the bad_gateway branch. -/

inductive UpstreamOutcome where
  | response (status : Nat) (parsed : Option JVal) (text : String)
  | timeoutError
  | transportError

structure StdResp where
  code : Nat
  message : String
  data : Option JVal

/-- HTTP status and envelope the proxy returns for an upstream outcome. -/
def proxy_envelope : UpstreamOutcome → Nat × StdResp
  | .timeoutError => (504, ⟨504, "upstream_timeout", none⟩)
  | .transportError => (502, ⟨502, "bad_gateway", none⟩)
  | .response status parsed text =>
    let data0 := match parsed with
      | some v => v
      | none => JVal.obj [("raw", JVal.str text)]
    let data := match data0 with
      | JVal.obj fields => JVal.obj fields
      | JVal.arr elems => JVal.arr elems
      | v => JVal.obj [("value", v)]
    if status < 400 then (200, ⟨0, "ok", some data⟩)
    else (502, ⟨status, "upstream_error", some data⟩)

/-! ## Embedding of the gateway rate-limit wiring
(src/gateway/app/main.py, lines 103 to 131).

A route handler is modelled by its rate-limit behaviour for a single
client: it maps the client hit count of the current fixed window to a
response status and the next hit count.  The slowapi limit decorator
wraps a handler so that a request beyond the window limit gets 429 and
is not forwarded.  The FastAPI api_route decorator registers the exact
function it receives and returns it unchanged.  In the source the limit
decorator is written above the api_route decorator, so Python applies
api_route first: the app registers the bare handler and the slowapi
wrapper is only bound to the module-level name, never to the route; no
slowapi middleware is installed either. -/

abbrev RLHandler := Nat → Nat × Nat

/-- Slowapi limit wrapper for a per-client fixed window. -/
def slowapi_limit (perWindow : Nat) (f : RLHandler) : RLHandler :=
  fun hits => if hits < perWindow then f (hits + 1) else (429, hits)

structure GatewayApp where
  handlers : List RLHandler

/-- FastAPI api_route decorator: registers the received function on the
app and returns that same function. -/
def api_route_register (app : GatewayApp) (f : RLHandler) : GatewayApp × RLHandler :=
  ({ handlers := app.handlers ++ [f] }, f)

/-- Bare proxy endpoint: forwards and answers with the envelope status,
touching no rate-limit state. -/
def proxy_endpoint (u : UpstreamOutcome) : RLHandler :=
  fun hits => ((proxy_envelope u).1, hits)

/-- Decorator application as written in the source: api_route below,
limit above.  The first component is the app after registration, the
second is what the module-level name proxy ends up bound to. -/
def gateway_registration (u : UpstreamOutcome) : GatewayApp × RLHandler :=
  let r1 := api_route_register ⟨[]⟩ (proxy_endpoint u)
  (r1.1, slowapi_limit 60 r1.2)

/-- Statuses observed by one client sending n requests in one window,
served by a fixed handler threading the hit count. -/
def serveRequests (h : RLHandler) : Nat → Nat → List Nat
  | 0, _ => []
  | n + 1, hits =>
    let r := h hits
    r.1 :: serveRequests h n r.2

/-! ## Helper lemmas -/

theorem breakAtFirst_append (c : Char) (xs ys : List Char) (h : c ∉ xs) :
    breakAtFirst c (xs ++ c :: ys) = some (xs, ys) := by
  induction xs with
  | nil => simp [breakAtFirst]
  | cons x xt ih =>
    have hx : x ≠ c := by
      intro he
      exact h (he ▸ List.mem_cons_self x xt)
    have ht : c ∉ xt := fun hm => h (List.mem_cons_of_mem x hm)
    simp [breakAtFirst, hx, ih ht]

theorem breakAtFirst_eq_none (c : Char) (l : List Char) (h : c ∉ l) :
    breakAtFirst c l = none := by
  induction l with
  | nil => rfl
  | cons x xt ih =>
    have hx : x ≠ c := by
      intro he
      exact h (he ▸ List.mem_cons_self x xt)
    have ht : c ∉ xt := fun hm => h (List.mem_cons_of_mem x hm)
    simp [breakAtFirst, hx, ih ht]

theorem takeWhile_all_append (p : Char → Bool) (xs : List Char) (y : Char) (ys : List Char)
    (hxs : ∀ x ∈ xs, p x = true) (hy : p y = false) :
    (xs ++ y :: ys).takeWhile p = xs := by
  induction xs with
  | nil => simp [List.takeWhile, hy]
  | cons x xt ih =>
    have hx : p x = true := hxs x (List.mem_cons_self x xt)
    have ht : ∀ x ∈ xt, p x = true := fun z hz => hxs z (List.mem_cons_of_mem x hz)
    simp [List.takeWhile, hx, ih ht]

theorem dropWhile_all_append (p : Char → Bool) (xs : List Char) (y : Char) (ys : List Char)
    (hxs : ∀ x ∈ xs, p x = true) (hy : p y = false) :
    (xs ++ y :: ys).dropWhile p = y :: ys := by
  induction xs with
  | nil => simp [List.dropWhile, hy]
  | cons x xt ih =>
    have hx : p x = true := hxs x (List.mem_cons_self x xt)
    have ht : ∀ x ∈ xt, p x = true := fun z hz => hxs z (List.mem_cons_of_mem x hz)
    simp [List.dropWhile, hx, ih ht]

theorem rpartitionSlash_append (dirp file : List Char) (h : '/' ∉ file) :
    rpartitionSlash (dirp ++ '/' :: file) = (dirp, file) := by
  have hrev : '/' ∉ file.reverse := by simpa using h
  have : (dirp ++ '/' :: file).reverse = file.reverse ++ '/' :: dirp.reverse := by
    simp
  rw [rpartitionSlash, this, breakAtFirst_append '/' file.reverse dirp.reverse hrev]
  simp

theorem rpartitionSlash_trailing (l : List Char) (h : l.getLast? = some '/') :
    (rpartitionSlash l).2 = [] := by
  have hhead : l.reverse.head? = some '/' := by
    rw [List.head?_reverse]
    exact h
  match hrev : l.reverse with
  | [] => rw [hrev] at hhead; simp at hhead
  | a :: t =>
    rw [hrev] at hhead
    simp at hhead
    rw [rpartitionSlash, hrev, hhead]
    simp [breakAtFirst]

theorem filter_safe_id (l : List Char) (h : ∀ c ∈ l, isUnsafeUrlChar c = false) :
    l.filter (fun c => !isUnsafeUrlChar c) = l := by
  apply List.filter_eq_self.mpr
  intro a ha
  simp [h a ha]

theorem streamFoldAux_spec (chunks : List (List Nat)) :
    ∀ written size hashed,
      streamFoldAux written size hashed chunks =
        (written ++ chunks.flatten, size + chunks.flatten.length, hashed ++ chunks.flatten) := by
  induction chunks with
  | nil => intro w s h; simp [streamFoldAux]
  | cons c rest ih =>
    intro w s h
    by_cases hc : c = []
    · subst hc
      simp [streamFoldAux, ih]
    · rw [streamFoldAux, if_neg hc, ih]
      simp [List.append_assoc, Nat.add_assoc]

theorem unsafe_cases (c : Char) (h : isUnsafeUrlChar c = true) :
    c = '\t' ∨ c = '\r' ∨ c = '\n' := by
  simpa [isUnsafeUrlChar, or_assoc] using h

theorem isSchemeChar_safe (c : Char) (h : isSchemeChar c = true) :
    isUnsafeUrlChar c = false := by
  cases hb : isUnsafeUrlChar c with
  | false => rfl
  | true =>
    rcases unsafe_cases c hb with rfl | rfl | rfl <;> exact absurd h (by decide)

theorem isPlainNetlocChar_parts (c : Char) (h : isPlainNetlocChar c = true) :
    c ≠ '/' ∧ c ≠ '?' ∧ c ≠ '#' ∧ c ≠ '[' ∧ c ≠ ']' ∧ isUnsafeUrlChar c = false := by
  simpa [isPlainNetlocChar, not_or, and_assoc] using h

theorem isPlainFileChar_parts (c : Char) (h : isPlainFileChar c = true) :
    c ≠ '/' ∧ c ≠ '?' ∧ c ≠ '#' ∧ isUnsafeUrlChar c = false := by
  simpa [isPlainFileChar, not_or, and_assoc] using h

theorem isPlainDirChar_parts (c : Char) (h : isPlainDirChar c = true) :
    c ≠ '?' ∧ c ≠ '#' ∧ isUnsafeUrlChar c = false := by
  simpa [isPlainDirChar, not_or, and_assoc] using h

theorem isPlainNetlocChar_not_stop (c : Char) (h : isPlainNetlocChar c = true) :
    isNetlocStop c = false := by
  obtain ⟨h1, h2, h3, -, -, -⟩ := isPlainNetlocChar_parts c h
  simp [isNetlocStop, h1, h2, h3]

/-- Computation of pyUrlsplit on a well-formed composed URL: lowercase
scheme, clean netloc, and a remainder that begins with a slash and holds
no hash, question mark or stripped character. -/
theorem pyUrlsplit_compose (c0 : Char) (srest netloc rest2 : List Char)
    (hA : isAsciiAlphaChar c0 = true)
    (hAll : (c0 :: srest).all isSchemeChar = true)
    (hLower : (c0 :: srest).map Char.toLower = c0 :: srest)
    (hnet : ∀ c ∈ netloc, isPlainNetlocChar c = true)
    (hrestSafe : ∀ c ∈ rest2, isUnsafeUrlChar c = false)
    (hrestHead : ∃ z, rest2 = '/' :: z)
    (hrestNoHash : '#' ∉ rest2) (hrestNoQ : '?' ∉ rest2) :
    pyUrlsplit ((c0 :: srest) ++ ':' :: '/' :: '/' :: (netloc ++ rest2)) =
      some ⟨c0 :: srest, netloc, rest2, [], []⟩ := by
  obtain ⟨z, rfl⟩ := hrestHead
  have hschemeAll : ∀ c ∈ c0 :: srest, isSchemeChar c = true := List.all_eq_true.mp hAll
  have hfilter :
      ((c0 :: srest) ++ ':' :: '/' :: '/' :: (netloc ++ '/' :: z)).filter
          (fun c => !isUnsafeUrlChar c) =
        (c0 :: srest) ++ ':' :: '/' :: '/' :: (netloc ++ '/' :: z) := by
    apply filter_safe_id
    refine List.forall_mem_append.mpr ⟨?_, ?_⟩
    · exact fun c hc => isSchemeChar_safe c (hschemeAll c hc)
    · refine List.forall_mem_cons.mpr ⟨by decide, ?_⟩
      refine List.forall_mem_cons.mpr ⟨by decide, ?_⟩
      refine List.forall_mem_cons.mpr ⟨by decide, ?_⟩
      refine List.forall_mem_append.mpr ⟨?_, ?_⟩
      · exact fun c hc => (isPlainNetlocChar_parts c (hnet c hc)).2.2.2.2.2
      · exact hrestSafe
  have hcolon : ':' ∉ c0 :: srest := by
    intro hmem
    exact absurd (hschemeAll ':' hmem) (by decide)
  have hbreak :
      breakAtFirst ':' ((c0 :: srest) ++ ':' :: '/' :: '/' :: (netloc ++ '/' :: z)) =
        some (c0 :: srest, '/' :: '/' :: (netloc ++ '/' :: z)) :=
    breakAtFirst_append ':' (c0 :: srest) ('/' :: '/' :: (netloc ++ '/' :: z)) hcolon
  have hscheme :
      urlsplitScheme ((c0 :: srest) ++ ':' :: '/' :: '/' :: (netloc ++ '/' :: z)) =
        (c0 :: srest, '/' :: '/' :: (netloc ++ '/' :: z)) := by
    rw [urlsplitScheme, hbreak]
    simp [hA, hAll, hLower]
  have hnp : ∀ x ∈ netloc, (fun c => !isNetlocStop c) x = true := by
    intro x hx
    simp [isPlainNetlocChar_not_stop x (hnet x hx)]
  have htake : (netloc ++ '/' :: z).takeWhile (fun c => !isNetlocStop c) = netloc :=
    takeWhile_all_append _ netloc '/' z hnp (by decide)
  have hdrop : (netloc ++ '/' :: z).dropWhile (fun c => !isNetlocStop c) = '/' :: z :=
    dropWhile_all_append _ netloc '/' z hnp (by decide)
  have hbrL : '[' ∉ netloc := by
    intro hmem
    exact absurd (hnet '[' hmem) (by decide)
  have hbrR : ']' ∉ netloc := by
    intro hmem
    exact absurd (hnet ']' hmem) (by decide)
  have hnoHash : breakAtFirst '#' ('/' :: z) = none :=
    breakAtFirst_eq_none '#' ('/' :: z) hrestNoHash
  have hnoQ : breakAtFirst '?' ('/' :: z) = none :=
    breakAtFirst_eq_none '?' ('/' :: z) hrestNoQ
  rw [pyUrlsplit]
  simp only [hfilter, hscheme, htake, hdrop, hnoHash, hnoQ, hbrL, hbrR]
  simp [hbrL, hbrR]

/-! ## Claim theorems -/

/-- C1: for a POST to the agents endpoint with a given request id, the
doc-OCR handler answers 202 with request id and status RECEIVED when
neither a job record nor a lock exists, answers with the existing record
when one exists, and answers with a RUNNING body and a status other than
202 when no record exists but the idempotency lock is held. -/
theorem doc_ocr_post_idempotency_contract (t : InMemoryJobTracker) (request_id token : String) :
    (t.get_job request_id = none → memLockKey request_id ∉ t.locks →
      (doc_ocr_run t request_id token).1 = (202, ⟨request_id, "RECEIVED", none, none⟩)) ∧
    (∀ rec, t.get_job request_id = some rec →
      (doc_ocr_run t request_id token).1 = (200, ⟨request_id, rec.status, rec.result, rec.error⟩)) ∧
    (t.get_job request_id = none → memLockKey request_id ∈ t.locks →
      (doc_ocr_run t request_id token).1 = (200, ⟨request_id, "RUNNING", none, none⟩) ∧
      (doc_ocr_run t request_id token).1.1 ≠ 202) := by
  refine ⟨?_, ?_, ?_⟩
  · intro hjob hlock
    simp [doc_ocr_run, hjob, InMemoryJobTracker.acquire_lock, hlock]
  · intro rec hjob
    simp [doc_ocr_run, hjob]
  · intro hjob hlock
    simp [doc_ocr_run, hjob, InMemoryJobTracker.acquire_lock, hlock]

/-- Witness for C1: the three branches realised on concrete tracker
states. -/
theorem doc_ocr_post_idempotency_contract_witness :
    ((doc_ocr_run ⟨[], []⟩ "r1" "tok").1 = (202, ⟨"r1", "RECEIVED", none, none⟩)) ∧
    ((doc_ocr_run ⟨[(memJobKey "r1", ⟨"SUCCEEDED", none, none⟩)], []⟩ "r1" "tok").1 =
      (200, ⟨"r1", "SUCCEEDED", none, none⟩)) ∧
    ((doc_ocr_run ⟨[], [memLockKey "r1"]⟩ "r1" "tok").1 =
      (200, ⟨"r1", "RUNNING", none, none⟩)) := by
  refine ⟨?_, ?_, ?_⟩
  · exact (doc_ocr_post_idempotency_contract ⟨[], []⟩ "r1" "tok").1 rfl (by simp [memLockKey])
  · exact (doc_ocr_post_idempotency_contract ⟨[(memJobKey "r1", ⟨"SUCCEEDED", none, none⟩)], []⟩
      "r1" "tok").2.1 ⟨"SUCCEEDED", none, none⟩ (by simp [InMemoryJobTracker.get_job])
  · exact ((doc_ocr_post_idempotency_contract ⟨[], [memLockKey "r1"]⟩ "r1" "tok").2.2 rfl
      (by simp)).1

/-- C3: per request, the written status sequence is one of RECEIVED,
RUNNING, FAILED; RECEIVED, RUNNING, UPLOADING, FAILED; or RECEIVED,
RUNNING, UPLOADING, SUCCEEDED, and once a terminal status is written no
later write in the same request sets a non-terminal status. -/
theorem doc_ocr_status_monotonicity :
    ∀ downloadsOk agentOk uploadOk : Bool,
      (doc_ocr_statusTrace downloadsOk agentOk uploadOk = ["RECEIVED", "RUNNING", "FAILED"] ∨
       doc_ocr_statusTrace downloadsOk agentOk uploadOk =
         ["RECEIVED", "RUNNING", "UPLOADING", "FAILED"] ∨
       doc_ocr_statusTrace downloadsOk agentOk uploadOk =
         ["RECEIVED", "RUNNING", "UPLOADING", "SUCCEEDED"]) ∧
      noNonTerminalAfterTerminal (doc_ocr_statusTrace downloadsOk agentOk uploadOk) = true := by
  decide

/-- C5: the gateway proxy maps an upstream response below 400 to HTTP 200
with code 0, message ok and the parsed data, wrapping an unparseable body
as a raw object and a scalar as a value object; an upstream status of at
least 400 maps to HTTP 502 with the upstream code and message
upstream_error; a timeout maps to HTTP 504 upstream_timeout; any other
transport error maps to HTTP 502 bad_gateway. -/
theorem gateway_proxy_envelope_mapping :
    (∀ status parsed text, status < 400 →
      proxy_envelope (.response status parsed text) =
        (200, ⟨0, "ok", some (match parsed with
          | some (JVal.obj fields) => JVal.obj fields
          | some (JVal.arr elems) => JVal.arr elems
          | some v => JVal.obj [("value", v)]
          | none => JVal.obj [("raw", JVal.str text)])⟩)) ∧
    (∀ status parsed text, 400 ≤ status →
      proxy_envelope (.response status parsed text) =
        (502, ⟨status, "upstream_error", some (match parsed with
          | some (JVal.obj fields) => JVal.obj fields
          | some (JVal.arr elems) => JVal.arr elems
          | some v => JVal.obj [("value", v)]
          | none => JVal.obj [("raw", JVal.str text)])⟩)) ∧
    proxy_envelope .timeoutError = (504, ⟨504, "upstream_timeout", none⟩) ∧
    proxy_envelope .transportError = (502, ⟨502, "bad_gateway", none⟩) := by
  refine ⟨?_, ?_, rfl, rfl⟩
  · intro status parsed text hlt
    match parsed with
    | none => simp [proxy_envelope, hlt]
    | some (JVal.obj fields) => simp [proxy_envelope, hlt]
    | some (JVal.arr elems) => simp [proxy_envelope, hlt]
    | some (JVal.str s) => simp [proxy_envelope, hlt]
    | some (JVal.num n) => simp [proxy_envelope, hlt]
    | some (JVal.bool b) => simp [proxy_envelope, hlt]
    | some JVal.null => simp [proxy_envelope, hlt]
  · intro status parsed text hge
    have hnl : ¬status < 400 := by omega
    match parsed with
    | none => simp [proxy_envelope, hnl]
    | some (JVal.obj fields) => simp [proxy_envelope, hnl]
    | some (JVal.arr elems) => simp [proxy_envelope, hnl]
    | some (JVal.str s) => simp [proxy_envelope, hnl]
    | some (JVal.num n) => simp [proxy_envelope, hnl]
    | some (JVal.bool b) => simp [proxy_envelope, hnl]
    | some JVal.null => simp [proxy_envelope, hnl]

/-- Witness for C5: the success and upstream-error branches realised at
concrete statuses. -/
theorem gateway_proxy_envelope_mapping_witness :
    proxy_envelope (.response 200 none "pong") =
      (200, ⟨0, "ok", some (JVal.obj [("raw", JVal.str "pong")])⟩) ∧
    proxy_envelope (.response 500 (some (JVal.str "boom")) "boom") =
      (502, ⟨500, "upstream_error", some (JVal.obj [("value", JVal.str "boom")])⟩) :=
  ⟨gateway_proxy_envelope_mapping.1 200 none "pong" (by omega),
   gateway_proxy_envelope_mapping.2.1 500 (some (JVal.str "boom")) "boom" (by omega)⟩

set_option maxRecDepth 8000 in
/-- C6: the route the gateway actually registers for the proxy is the
bare handler, because the slowapi limit decorator is applied above the
api_route decorator; one client sending 61 requests in a single window
receives 200 every time and never 429, although the slowapi wrapper the
module name is bound to would have answered 429 on the 61st request. -/
theorem gateway_rate_limit_not_enforced :
    (gateway_registration (.response 200 (some (JVal.obj [])) "")).1.handlers =
      [proxy_endpoint (.response 200 (some (JVal.obj [])) "")] ∧
    serveRequests (proxy_endpoint (.response 200 (some (JVal.obj [])) "")) 61 0 =
      List.replicate 61 200 ∧
    (serveRequests (gateway_registration (.response 200 (some (JVal.obj [])) "")).2 61 0).getLast? =
      some 429 := by
  refine ⟨rfl, by decide, by decide⟩

/-- C2 as amended: the Redis-backed tracker releases a lock only to the
holder of the acquisition token, so release with a different token leaves
the lock value in place whatever faults the swallowed Redis calls hit;
the in-memory tracker has the same surface but discards the lock without
comparing the token, so any token releases it. -/
theorem release_lock_token_safety :
    (∀ (st : KVStore) (keyPref request_id token t2 : String) (st2 : KVStore)
        (getFault delFault : Bool),
      JobTracker.acquire_lock st keyPref request_id token = (some token, st2) →
      t2 ≠ token →
      kvGet (JobTracker.release_lock st2 keyPref request_id t2 getFault delFault)
          (redisLockKey keyPref request_id) = some token) ∧
    (∀ (t : InMemoryJobTracker) (request_id token t2 : String) (tAcq : InMemoryJobTracker),
      InMemoryJobTracker.acquire_lock t request_id token = (some token, tAcq) →
      memLockKey request_id ∉ (tAcq.release_lock request_id t2).locks) := by
  constructor
  · intro st keyPref request_id token t2 st2 getFault delFault hacq hne
    rw [JobTracker.acquire_lock] at hacq
    match hget : kvGet st (redisLockKey keyPref request_id) with
    | some v =>
      rw [hget] at hacq
      exact absurd hacq (by simp)
    | none =>
      rw [hget] at hacq
      have hst2 : kvSet st (redisLockKey keyPref request_id) token = st2 := by
        simpa using hacq
      have hcur : kvGet st2 (redisLockKey keyPref request_id) = some token := by
        rw [← hst2]
        simp [kvGet, kvSet, List.find?]
      rw [JobTracker.release_lock]
      cases getFault with
      | true => simpa using hcur
      | false =>
        have hne2 : ¬(token = t2) := fun he => hne he.symm
        simp [hcur, hne2]
  · intro t request_id token t2 tAcq hacq
    rw [InMemoryJobTracker.release_lock]
    simp

/-- Witness for C2: release with a wrong token on a concretely acquired
Redis lock leaves the token stored, and the in-memory release drops the
concretely acquired lock. -/
theorem release_lock_token_safety_witness :
    kvGet (JobTracker.release_lock (kvSet [] (redisLockKey "aihub" "r1") "tokA")
        "aihub" "r1" "tokB" false false) (redisLockKey "aihub" "r1") = some "tokA" ∧
    memLockKey "r1" ∉
      ((InMemoryJobTracker.release_lock ⟨[], [memLockKey "r1"]⟩ "r1" "tokB")).locks :=
  ⟨release_lock_token_safety.1 [] "aihub" "r1" "tokA" "tokB"
      (kvSet [] (redisLockKey "aihub" "r1") "tokA") false false (by decide) (by decide),
   release_lock_token_safety.2 ⟨[], []⟩ "r1" "tokA" "tokB" ⟨[], [memLockKey "r1"]⟩ rfl⟩

/-- Counterexample for C2 as stated: the in-memory tracker deletes the
lock on release with a token different from the acquired one. -/
theorem inmemory_release_lock_wrong_token_deletes :
    (InMemoryJobTracker.acquire_lock ⟨[], []⟩ "r1" "tokA").1 = some "tokA" ∧
    "tokB" ≠ "tokA" ∧
    memLockKey "r1" ∈ ((InMemoryJobTracker.acquire_lock ⟨[], []⟩ "r1" "tokA").2).locks ∧
    memLockKey "r1" ∉
      (((InMemoryJobTracker.acquire_lock ⟨[], []⟩ "r1" "tokA").2).release_lock
        "r1" "tokB").locks := by
  refine ⟨by decide, by decide, by decide, by decide⟩

/-- Invariant of the staging-name loop: when every chosen name was fresh
against the used set at its turn, the chosen names are distinct and none
of them lies in the initial used set. -/
theorem stage_filenames_go_nodup (refs : List FileRefM) :
    ∀ idx used, (stage_filenames_go idx used refs).2 = true →
      ((stage_filenames_go idx used refs).1).Nodup ∧
      ∀ x ∈ (stage_filenames_go idx used refs).1, x ∉ used := by
  induction refs with
  | nil =>
    intro idx used _
    simp [stage_filenames_go]
  | cons r rs ih =>
    intro idx used hflag
    rw [stage_filenames_go] at hflag ⊢
    set n0 := derive_filename idx r with hn0
    set chosen := if n0 ∈ used then dedupRename idx n0 else n0 with hchosen
    have hflag2 : decide (chosen ∉ used) = true ∧
        (stage_filenames_go (idx + 1) (chosen :: used) rs).2 = true := by
      simpa [Bool.and_eq_true] using hflag
    have hfresh : chosen ∉ used := of_decide_eq_true hflag2.1
    have hrest := ih (idx + 1) (chosen :: used) hflag2.2
    refine ⟨?_, ?_⟩
    · refine List.nodup_cons.mpr ⟨?_, hrest.1⟩
      intro hmem
      exact (hrest.2 chosen hmem) (List.mem_cons_self chosen used)
    · intro x hx
      rcases List.mem_cons.mp hx with hx | hx
      · exact hx ▸ hfresh
      · intro hxu
        exact (hrest.2 x hx) (List.mem_cons_of_mem chosen hxu)

/-- C9 as amended: the derived local staging filenames of a doc-OCR
request are pairwise distinct whenever every collision rename is itself
fresh at its turn; the source applies the rename without rechecking, so
a crafted list of file refs can still collide. -/
theorem doc_ocr_stage_filenames_nodup (refs : List FileRefM)
    (h : (stage_filenames refs).2 = true) : ((stage_filenames refs).1).Nodup :=
  (stage_filenames_go_nodup refs 0 [] h).1

/-- Witness for C9: two equal incoming filenames are renamed apart and
the freshness flag holds on this input. -/
theorem doc_ocr_stage_filenames_nodup_witness :
    (stage_filenames [⟨"http://h/x".toList, some "a.txt".toList⟩,
        ⟨"http://h/x".toList, some "a.txt".toList⟩,
        ⟨"http://h/d/b.pdf".toList, none⟩]).2 = true ∧
    ((stage_filenames [⟨"http://h/x".toList, some "a.txt".toList⟩,
        ⟨"http://h/x".toList, some "a.txt".toList⟩,
        ⟨"http://h/d/b.pdf".toList, none⟩]).1).Nodup :=
  ⟨by decide,
   doc_ocr_stage_filenames_nodup [⟨"http://h/x".toList, some "a.txt".toList⟩,
      ⟨"http://h/x".toList, some "a.txt".toList⟩,
      ⟨"http://h/d/b.pdf".toList, none⟩] (by decide)⟩

/-- Counterexample for C9 as stated: with incoming filenames a.txt,
a-3.txt and a.txt the third name is renamed to a-3.txt, which is already
taken, so two staged files of the same request share a local filename. -/
theorem doc_ocr_stage_filenames_collision :
    (stage_filenames [⟨"http://h/x".toList, some "a.txt".toList⟩,
        ⟨"http://h/x".toList, some "a-3.txt".toList⟩,
        ⟨"http://h/x".toList, some "a.txt".toList⟩]).1 =
      ["a.txt".toList, "a-3.txt".toList, "a-3.txt".toList] ∧
    ¬ ((stage_filenames [⟨"http://h/x".toList, some "a.txt".toList⟩,
        ⟨"http://h/x".toList, some "a-3.txt".toList⟩,
        ⟨"http://h/x".toList, some "a.txt".toList⟩]).1).Nodup := by
  refine ⟨by decide, by decide⟩

/-- Closed form of the callback loop over a suffix of the attempt range
when every attempt fails. -/
theorem sendCallbackLoop_all_fail {P : Type} (payload : P) (base_delay : ℚ)
    (ok : Nat → Bool) (max_retries : Nat) (hfail : ∀ a, ok a = false) :
    ∀ (n s : Nat), 1 ≤ s → s + n = max_retries + 1 →
      sendCallbackLoop payload base_delay ok max_retries (List.range' s n) =
        (List.replicate n payload,
         (List.range (n - 1)).map (fun k => base_delay * 2 ^ (s - 1 + k))) := by
  intro n
  induction n with
  | zero => intro s _ _; simp [sendCallbackLoop]
  | succ m ih =>
    intro s hs hsum
    rw [List.range'_succ, sendCallbackLoop, hfail s]
    cases m with
    | zero =>
      have : ¬ s < max_retries := by omega
      simp [this, sendCallbackLoop]
    | succ m2 =>
      have hlt : s < max_retries := by omega
      have hrec := ih (s + 1) (by omega) (by omega)
      rw [if_neg (by simp), if_pos hlt, hrec]
      refine Prod.ext ?_ ?_
      · simp [List.replicate_succ]
      · simp only []
        have hr : (m2 + 1 + 1) - 1 = (m2 + 1 - 1) + 1 := by omega
        rw [hr, List.range_succ_eq_map]
        simp only [List.map_cons, List.map_map]
        have h0 : base_delay * 2 ^ (s - 1 + 0) = base_delay * 2 ^ (s - 1) := by norm_num
        rw [h0]
        refine congrArg (fun l => base_delay * 2 ^ (s - 1) :: l) ?_
        apply List.map_congr_left
        intro k _
        simp only [Function.comp_apply, Function.comp]
        congr 2
        omega

/-- C7 as amended: when every callback POST fails, the sender makes
exactly max_retries attempts, each posting the payload, and sleeps
base_delay times 2 to the power k minus 1 after failed attempt k for
every k below max_retries; no delay follows the final attempt, so there
are max_retries minus 1 delays. -/
theorem doc_ocr_callback_retry_schedule {P : Type} (payload : P) (base_delay : ℚ)
    (ok : Nat → Bool) (hfail : ∀ a, ok a = false) (max_retries : Nat) :
    send_callback payload base_delay ok max_retries =
      (List.replicate max_retries payload,
       (List.range (max_retries - 1)).map (fun k => base_delay * 2 ^ k)) := by
  rw [send_callback, pyRangeList]
  have hrange : max_retries + 1 - 1 = max_retries := by omega
  rw [hrange]
  have := sendCallbackLoop_all_fail payload base_delay ok max_retries hfail max_retries 1
    (by omega) (by omega)
  rw [this]
  simp

/-- Witness for C7: three failing attempts with base delay a hundredth
post three payloads and sleep twice. -/
theorem doc_ocr_callback_retry_schedule_witness :
    send_callback (0 : Nat) (1 / 100 : ℚ) (fun _ => false) 3 =
      (List.replicate 3 0, (List.range 2).map (fun k => (1 / 100 : ℚ) * 2 ^ k)) :=
  doc_ocr_callback_retry_schedule (0 : Nat) (1 / 100 : ℚ) (fun _ => false) (fun _ => rfl) 3

/-- Counterexample for C7 as stated: with max_retries three and base
delay a hundredth there are exactly two delays, so no third delay of at
least four hundredths is observed. -/
theorem doc_ocr_callback_no_third_delay :
    (send_callback (0 : Nat) (1 / 100 : ℚ) (fun _ => false) 3).2 = [1 / 100, 1 / 50] ∧
    ¬ ((send_callback (0 : Nat) (1 / 100 : ℚ) (fun _ => false) 3).1.length = 3 ∧
       ∃ d1 d2 d3 rest, (send_callback (0 : Nat) (1 / 100 : ℚ) (fun _ => false) 3).2 =
           d1 :: d2 :: d3 :: rest ∧ 1 / 100 ≤ d1 ∧ 2 / 100 ≤ d2 ∧ 4 / 100 ≤ d3) := by
  have hd : (send_callback (0 : Nat) (1 / 100 : ℚ) (fun _ => false) 3).2 = [1 / 100, 1 / 50] := by
    norm_num [send_callback, pyRangeList, sendCallbackLoop, List.range']
  refine ⟨hd, ?_⟩
  rintro ⟨-, d1, d2, d3, rest, heq, -⟩
  rw [hd] at heq
  simp at heq

/-- C4 as amended: the orchestrator download stages a file with a single
direct streaming GET of the given URL, falling back to the ESB base plus
SSC only when the URL is empty, sends no JSON body, writes the streamed
bytes to staging_dir slash request_id slash filename, and the bytes
written are exactly the concatenation of the streamed chunks. -/
theorem download_to_staging_direct_get (request_id url staging_dir filename esb_base_url : List Char)
    (fetch : HttpActionM → List (List Nat)) :
    (download_to_staging request_id url staging_dir filename esb_base_url fetch).action =
      ⟨"GET".toList,
       if url = [] then rstripChar '/' esb_base_url ++ ('/' :: "SSC".toList) else url,
       none⟩ ∧
    (download_to_staging request_id url staging_dir filename esb_base_url fetch).staged.local_path =
      pathJoin (pathJoin staging_dir request_id) filename ∧
    (download_to_staging request_id url staging_dir filename esb_base_url fetch).writtenBytes =
      (fetch (download_to_staging request_id url staging_dir filename esb_base_url fetch).action).flatten := by
  refine ⟨rfl, rfl, ?_⟩
  rw [download_to_staging]
  simp [streamFoldAux_spec]

/-- Counterexample for C4 as stated: on a concrete URL the action the
download performs is a direct GET of that URL and differs from the POST
to the ESB esb-download endpoint that the claim describes. -/
theorem download_to_staging_not_via_esb :
    (download_to_staging "r1".toList "http://host/a/b.pdf".toList "/app/data/staging".toList
        "b.pdf".toList "http://esb:7002".toList (fun _ => [])).action =
      ⟨"GET".toList, "http://host/a/b.pdf".toList, none⟩ ∧
    claimedEsbDownloadAction "http://host/a/b.pdf".toList "http://esb:7002".toList =
      some ⟨"POST".toList, "http://esb:7002/esb-download".toList,
        some ⟨"http://host/a".toList, "b.pdf".toList, none⟩⟩ ∧
    some (download_to_staging "r1".toList "http://host/a/b.pdf".toList "/app/data/staging".toList
        "b.pdf".toList "http://esb:7002".toList (fun _ => [])).action ≠
      claimedEsbDownloadAction "http://host/a/b.pdf".toList "http://esb:7002".toList := by
  refine ⟨by decide, by decide, by decide⟩

/-- C8 as amended: split_url_for_esb is a left inverse of slash
composition for any well-formed server path assembled from a lowercase
ASCII scheme, a nonempty clean netloc and a slash-led directory, and any
server file that is nonempty and free of slash, question mark, hash and
stripped control characters; the unrestricted claim fails for the empty
server file (and for files carrying query or fragment characters).  The
function moreover rejects every URL whose parse has an empty scheme, an
empty netloc, or a path ending in a slash. -/
theorem split_url_for_esb_roundtrip_and_reject :
    (∀ (c0 : Char) (srest netloc dir file : List Char),
      isAsciiAlphaChar c0 = true →
      (c0 :: srest).all isSchemeChar = true →
      (c0 :: srest).map Char.toLower = c0 :: srest →
      netloc ≠ [] → netloc.all isPlainNetlocChar = true →
      dir.all isPlainDirChar = true →
      (dir = [] ∨ ∃ dtl, dir = '/' :: dtl) →
      file ≠ [] → file.all isPlainFileChar = true →
      split_url_for_esb
        (composeUrl ((c0 :: srest) ++ (':' :: '/' :: '/' :: netloc) ++ dir) file) =
        some ((c0 :: srest) ++ (':' :: '/' :: '/' :: netloc) ++ dir, file)) ∧
    (∀ (u : List Char) (r : UrlSplitResult),
      pyUrlsplit u = some r →
      (r.scheme = [] ∨ r.netloc = [] ∨ r.path.getLast? = some '/') →
      split_url_for_esb u = none) := by
  constructor
  · intro c0 srest netloc dir file hA hAll hLower hnetne hnetAll hdirAll hdirShape hfne hfileAll
    have hnet := List.all_eq_true.mp hnetAll
    have hdir := List.all_eq_true.mp hdirAll
    have hfile := List.all_eq_true.mp hfileAll
    have hassoc : composeUrl ((c0 :: srest) ++ (':' :: '/' :: '/' :: netloc) ++ dir) file =
        (c0 :: srest) ++ ':' :: '/' :: '/' :: (netloc ++ (dir ++ '/' :: file)) := by
      simp [composeUrl]
    have hrestSafe : ∀ c ∈ dir ++ '/' :: file, isUnsafeUrlChar c = false := by
      refine List.forall_mem_append.mpr ⟨?_, ?_⟩
      · exact fun c hc => (isPlainDirChar_parts c (hdir c hc)).2.2
      · exact List.forall_mem_cons.mpr
          ⟨by decide, fun c hc => (isPlainFileChar_parts c (hfile c hc)).2.2.2⟩
    have hrestHead : ∃ z, dir ++ '/' :: file = '/' :: z := by
      rcases hdirShape with rfl | ⟨dtl, rfl⟩
      · exact ⟨file, by simp⟩
      · exact ⟨dtl ++ '/' :: file, by simp⟩
    have hrestNoHash : '#' ∉ dir ++ '/' :: file := by
      intro hmem
      rcases List.mem_append.mp hmem with hm | hm
      · exact absurd (hdir _ hm) (by decide)
      · rcases List.mem_cons.mp hm with he | hm
        · exact absurd he (by decide)
        · exact absurd (hfile _ hm) (by decide)
    have hrestNoQ : '?' ∉ dir ++ '/' :: file := by
      intro hmem
      rcases List.mem_append.mp hmem with hm | hm
      · exact absurd (hdir _ hm) (by decide)
      · rcases List.mem_cons.mp hm with he | hm
        · exact absurd he (by decide)
        · exact absurd (hfile _ hm) (by decide)
    have hsplit := pyUrlsplit_compose c0 srest netloc (dir ++ '/' :: file)
      hA hAll hLower hnet hrestSafe hrestHead hrestNoHash hrestNoQ
    have hslash : '/' ∉ file := fun hm => absurd (hfile '/' hm) (by decide)
    have hrp : rpartitionSlash (dir ++ '/' :: file) = (dir, file) :=
      rpartitionSlash_append dir file hslash
    rw [hassoc, split_url_for_esb, hsplit]
    simp [hnetne, hrp, hfne]
  · intro u r hu hbad
    rcases hbad with hs | hn | hp
    · simp [split_url_for_esb, hu, hs]
    · simp [split_url_for_esb, hu, hn]
    · simp [split_url_for_esb, hu, rpartitionSlash_trailing r.path hp]

/-- Witness for C8: the round trip realised on a concrete server path
and file, and the rejection realised on a concrete trailing-slash URL. -/
theorem split_url_for_esb_roundtrip_witness :
    split_url_for_esb
        (composeUrl (('h' :: "ttp".toList) ++ (':' :: '/' :: '/' :: "host".toList) ++ "/a".toList)
          "b.pdf".toList) =
      some (('h' :: "ttp".toList) ++ (':' :: '/' :: '/' :: "host".toList) ++ "/a".toList,
        "b.pdf".toList) ∧
    split_url_for_esb "http://host/a/".toList = none :=
  ⟨split_url_for_esb_roundtrip_and_reject.1 'h' "ttp".toList "host".toList "/a".toList
      "b.pdf".toList (by decide) (by decide) (by decide) (by decide) (by decide) (by decide)
      (Or.inr ⟨['a'], by decide⟩) (by decide) (by decide),
   split_url_for_esb_roundtrip_and_reject.2 "http://host/a/".toList
      ⟨"http".toList, "host".toList, "/a/".toList, [], []⟩ (by decide)
      (Or.inr (Or.inr (by decide)))⟩

/-- Counterexample for C8 as stated: the empty server file contains no
slash, yet splitting its composition with a server path raises instead
of returning the pair back. -/
theorem split_url_for_esb_empty_file_fails :
    ('/' ∉ ([] : List Char)) ∧
    split_url_for_esb (composeUrl "http://host/a".toList ([] : List Char)) = none ∧
    split_url_for_esb (composeUrl "http://host/a".toList ([] : List Char)) ≠
      some ("http://host/a".toList, ([] : List Char)) := by
  refine ⟨by decide, by decide, by decide⟩

/-- C10: the sha256 recorded on a staged file is the SHA-256 hex digest
of exactly the bytes written to its local path, and size_bytes is their
length. -/
theorem staged_file_integrity (request_id url staging_dir filename esb_base_url : List Char)
    (fetch : HttpActionM → List (List Nat)) :
    (download_to_staging request_id url staging_dir filename esb_base_url fetch).staged.sha256 =
      sha256Hex (download_to_staging request_id url staging_dir filename esb_base_url fetch).writtenBytes ∧
    (download_to_staging request_id url staging_dir filename esb_base_url fetch).staged.size_bytes =
      (download_to_staging request_id url staging_dir filename esb_base_url fetch).writtenBytes.length := by
  rw [download_to_staging]
  simp [streamFoldAux_spec]

end AIHub
